import Mathlib

set_option maxRecDepth 100000

/-!
Shallow embedding of `lada/lib/degradation_utils.py`: randomized degradation
parameter sampling (v1 and v2), per-frame degradation pipelines, and the
in-memory video-compression round trip.

Randomness is embedded explicitly: every random generator is a stream
`ℕ → ℚ` of draws.  The injected generator pair returned by
`random_utils.get_rngs` (a discrete/boolean source `coins` and a numeric
source `nums`) is passed to each sampler; the process-global numpy state read
by `np.random.normal` is a separate distinguished stream (`globalRng`
parameters below).  External image primitives (cv2 blur/resize, JPEG round
trip, kernel generation, the av codec library) are outside the module
boundary and appear as function parameters.  float32 arithmetic on the v1
pixel path is modelled exactly (round to nearest, ties to even, 24-bit
significand) over scaled integers.
-/

/-- A random source, modelled by the sequence of values it produces.
Modelled from the spec: `random_utils.get_rngs` (absent from the sources)
returns two injectable generators — a discrete/boolean source and a numeric
source — optionally deterministically seeded; a generator is modelled by the
stream of draws it yields. -/
def UStream : Type := ℕ → ℚ

/-- `rng.uniform(a, b)` applied to a unit draw `u ∈ [0,1)`. -/
def uniformDraw (a b : ℚ) (u : ℚ) : ℚ := a + (b - a) * u

/-- numpy `rng.randint(lo, hi)` (half-open `[lo, hi)`) applied to a unit
draw `u ∈ [0,1)`. -/
def randintDraw (lo hi : ℕ) (u : ℚ) : ℕ := lo + (⌊u * ((hi : ℚ) - (lo : ℚ))⌋).toNat

/-- The video codecs named in `degradation_utils.py` (the v1 table uses
`mpeg4`, the v2 table uses `mpeg2video`; the other three are shared). -/
inductive Codec where
  | libx264 | libx265 | libvpx_vp9 | mpeg2video | mpeg4
deriving DecidableEq, Repr

/-- v2 codec table: `{'libx264': (16, 28), 'libx265': (20, 36),
'libvpx-vp9': (6000, 16000), 'mpeg2video': (18000, 40000)}`. -/
def codecsV2 : Codec → ℕ × ℕ
  | .libx264 => (16, 28)
  | .libx265 => (20, 36)
  | .libvpx_vp9 => (6000, 16000)
  | .mpeg2video => (18000, 40000)
  | .mpeg4 => (0, 0)  -- not a key of the v2 table

/-- numpy `rng.choice(['libx264','libx265','libvpx-vp9','mpeg2video'],
p=[0.3, 0.3, 0.3, 0.1])`: a weighted categorical choice, modelled by
cumulative thresholds on one unit draw. -/
def choiceCodecV2 (u : ℚ) : Codec :=
  if u < (3 : ℚ)/10 then .libx264
  else if u < (6 : ℚ)/10 then .libx265
  else if u < (9 : ℚ)/10 then .libvpx_vp9
  else .mpeg2video

/-- The fields of `MosaicRandomDegradationParamsV2` (the stored generator
`self._rng_numpy` is modelled by passing the numeric stream explicitly to
`reinit_second_pass`). -/
structure MosaicRandomDegradationParamsV2 where
  video_codec : Codec
  video_crf : Option ℕ
  video_bitrate : Option ℕ
  should_add_video_compression : Bool
  blur_sigma : ℕ
  should_add_blur : Bool
  should_add_noise : Bool
  should_run_video_compression_second_pass : Bool
deriving DecidableEq, Repr

/-- `MosaicRandomDegradationParamsV2.__init__`: weighted codec choice
(numeric draw 0), `randint(lo, hi + 1)` crf-or-bitrate value (numeric
draw 1), compression flag (`rng_random.random() < 0.9`, coin 0),
`blur_sigma = randint(1, 4)` (numeric draw 2), blur flag (coin 1 `< 0.3`),
noise flag (coin 2 `< 0.2`), second-pass flag (coin 3 `< 0.15`). -/
def mkParamsV2 (coins nums : UStream) : MosaicRandomDegradationParamsV2 :=
  let codec := choiceCodecV2 (nums 0)
  let value := randintDraw (codecsV2 codec).1 ((codecsV2 codec).2 + 1) (nums 1)
  let crf_bitrate : Option ℕ × Option ℕ :=
    if codec = .libvpx_vp9 ∨ codec = .mpeg2video then (none, some value)
    else (some value, none)
  { video_codec := codec
    video_crf := crf_bitrate.1
    video_bitrate := crf_bitrate.2
    should_add_video_compression := decide (coins 0 < (9 : ℚ)/10)
    blur_sigma := randintDraw 1 4 (nums 2)
    should_add_blur := decide (coins 1 < (3 : ℚ)/10)
    should_add_noise := decide (coins 2 < (2 : ℚ)/10)
    should_run_video_compression_second_pass := decide (coins 3 < (15 : ℚ)/100) }

/-- `MosaicRandomDegradationParamsV2.reinit_second_pass`, consuming one fresh
draw `u` from the stored numpy generator for `randint(24, 28)`. -/
def reinit_second_pass (p : MosaicRandomDegradationParamsV2) (u : ℚ) :
    MosaicRandomDegradationParamsV2 :=
  { p with
    video_codec := .libx264
    video_crf := some (randintDraw 24 28 u)
    video_bitrate := none
    should_add_blur := false
    should_add_noise := false
    should_run_video_compression_second_pass := false }

/-- v1 codec table: `{"libx264": (15000, 100000), "libx265": (10000, 60000),
"libvpx-vp9": (10000, 60000), "mpeg4": (15000, 100000)}`. -/
def codecsV1 : Codec → ℕ × ℕ
  | .libx264 => (15000, 100000)
  | .libx265 => (10000, 60000)
  | .libvpx_vp9 => (10000, 60000)
  | .mpeg4 => (15000, 100000)
  | .mpeg2video => (0, 0)  -- not a key of the v1 table

/-- Python `rng_random.choice(list(codecs.keys()))` over the v1 table:
a uniform choice among the four keys in insertion order, modelled by
quartile thresholds on one unit draw. -/
def choiceCodecV1 (u : ℚ) : Codec :=
  if u < (1 : ℚ)/4 then .libx264
  else if u < (2 : ℚ)/4 then .libx265
  else if u < (3 : ℚ)/4 then .libvpx_vp9
  else .mpeg4

/-- The fields of the v1 `MosaicRandomDegradationParams`.  `blur_kernel`
(the matrix returned by the external `random_mixed_kernels`) is modelled by
the abstract draw that produced it. -/
structure MosaicRandomDegradationParams where
  should_down_sample : Bool
  scale : ℚ
  should_add_noise : Bool
  sigma : ℚ
  repeatable_noise : Bool
  should_add_jpeg_compression : Bool
  jpeg_quality : ℚ
  video_codec : Codec
  video_bitrate : ℕ
  should_add_video_compression : Bool
  should_add_blur : Bool
  blur_kernel : ℚ
deriving DecidableEq, Repr

/-- `MosaicRandomDegradationParams.__init__`.  Each flag is
`requested_toggle and rng_random.random() < θ`; Python `and` short-circuits,
so a coin is consumed only when the toggle is true — the coin-stream position
of each later draw therefore shifts with the earlier toggles (tracked by the
`i…` indices).  All numeric values are drawn unconditionally from the numpy
stream (`scale`, `sigma`, `jpeg_quality`, `video_bitrate` at positions
0,1,2,3), the codec is always drawn from the coin stream, and the blur
kernel is always generated.  `random_mixed_kernels` is external and draws
from its own generators (it receives only `repeatable_random`); it is
modelled as one abstract draw from a dedicated stream `kdraws`. -/
def mkParamsV1 (t_down t_noise t_image t_video t_blur : Bool) (repeatable : Bool)
    (coins nums kdraws : UStream) : MosaicRandomDegradationParams :=
  let sds := t_down && decide (coins 0 < (1 : ℚ)/2)
  let i1 : ℕ := if t_down then 1 else 0
  let san := t_noise && decide (coins i1 < (3 : ℚ)/10)
  let i2 := i1 + (if t_noise then 1 else 0)
  let saj := t_image && decide (coins i2 < (1 : ℚ)/2)
  let i3 := i2 + (if t_image then 1 else 0)
  let codec := choiceCodecV1 (coins i3)
  let savc := t_video && decide (coins (i3 + 1) < (1 : ℚ)/2)
  let i5 := i3 + 1 + (if t_video then 1 else 0)
  let sab := t_blur && decide (coins i5 < (1 : ℚ)/2)
  { should_down_sample := sds
    scale := uniformDraw ((1 : ℚ)/2) 2 (nums 0)
    should_add_noise := san
    sigma := uniformDraw 0 2 (nums 1)
    repeatable_noise := repeatable
    should_add_jpeg_compression := saj
    jpeg_quality := uniformDraw 70 90 (nums 2)
    video_codec := codec
    video_bitrate := randintDraw (codecsV1 codec).1 ((codecsV1 codec).2 + 1) (nums 3)
    should_add_video_compression := savc
    should_add_blur := sab
    blur_kernel := kdraws 0 }

/-! ### Exact float32 model

A float value is `sig · 2 ^ exp`.  `rnd24…` rounds an exact rational to a
24-bit significand, round to nearest, ties to even — IEEE-754 binary32 on
the value range exercised here (no overflow, no subnormals). -/

/-- A binary32 value `sig · 2 ^ exp` (unbounded exponent; the pipeline stays
far inside the normal range). -/
structure F32 where
  sig : ℤ
  exp : ℤ
deriving DecidableEq, Repr

/-- Structural floor-log2 with explicit fuel (kernel-reducible). -/
def log2Aux : ℕ → ℕ → ℕ
  | 0, _ => 0
  | fuel+1, n => if 2 ≤ n then log2Aux fuel (n / 2) + 1 else 0

/-- `⌊log₂ (n/d)⌋` for `1 ≤ n`, `1 ≤ d ≤ 2^64`, computed by scaling. -/
def floorLog2 (n d : ℕ) : ℤ := (log2Aux 128 (n * 2^64 / d) : ℤ) - 64

/-- Round `n/d > 0` to a 24-bit significand, nearest, ties to even:
returns `(m, e)` with value `m · 2^e` and `2^23 ≤ m ≤ 2^24`. -/
def rnd24Pos (n d : ℕ) : ℕ × ℤ :=
  let e := floorLog2 n d - 23
  let N := if 0 ≤ e then n else n * 2^(-e).toNat
  let D := if 0 ≤ e then d * 2^e.toNat else d
  let q := N / D
  let r := N % D
  let m := if 2*r < D then q else if D < 2*r then q+1 else if q % 2 = 0 then q else q+1
  (m, e)

/-- Round the exact rational `n/d` to binary32. -/
def rnd24 (n : ℤ) (d : ℕ) : F32 :=
  if n = 0 then ⟨0, 0⟩
  else if 0 ≤ n then
    let p := rnd24Pos n.toNat d
    ⟨(p.1 : ℤ), p.2⟩
  else
    let p := rnd24Pos (-n).toNat d
    ⟨-(p.1 : ℤ), p.2⟩

/-- Round `(n/d) · 2^e` to binary32. -/
def rnd24Scaled (n : ℤ) (d : ℕ) (e : ℤ) : F32 :=
  let r := rnd24 n d
  ⟨r.sig, r.exp + e⟩

/-- IEEE float32 addition: round the exact sum. -/
def f32Add (x y : F32) : F32 :=
  let e := min x.exp y.exp
  rnd24Scaled (x.sig * 2^(x.exp - e).toNat + y.sig * 2^(y.exp - e).toNat) 1 e

/-- `x ≤ 1` on float values. -/
def f32Le1 (x : F32) : Bool :=
  if 0 ≤ x.exp then decide (x.sig * 2^x.exp.toNat ≤ 1) else decide (x.sig ≤ 2^(-x.exp).toNat)

/-- `np.clip(·, 0, 1)` on a float value (0 and 1 are exact floats). -/
def f32Clip01 (x : F32) : F32 :=
  if x.sig ≤ 0 then ⟨0, 0⟩ else if f32Le1 x then x else ⟨1, 0⟩

/-- Truncation toward zero of a float value (the C cast `astype(np.uint8)`
performs on the in-range values arising here). -/
def f32Trunc (x : F32) : ℤ :=
  if 0 ≤ x.exp then x.sig * 2^x.exp.toNat else Int.tdiv x.sig (2^(-x.exp).toNat)

/-- `.astype(np.uint8)` of a nonnegative in-range float value. -/
def astypeUint8 (x : F32) : ℕ := (f32Trunc x).toNat

/-- `img.astype(np.float32) / 255.` on one 8-bit pixel: the integer is exact
in float32 and the division rounds once. -/
def toF32div255 (v : ℕ) : F32 := rnd24 v 255

/-- `img_lq * 255.` on one float32 pixel: the exact product rounds once. -/
def mul255f (x : F32) : F32 := rnd24Scaled (255 * x.sig) 1 x.exp

/-- The v1 no-op pixel path: to normalized float32 and back to 8 bits. -/
def roundtripPixel (v : ℕ) : ℕ := astypeUint8 (mul255f (toF32div255 v))

/-! ### Images and per-frame degradation -/

/-- An 8-bit image: `height × width` with row-major pixel rows (the channel
axis carries through every modelled operation unchanged and is absorbed
into the pixel entries). -/
structure Image where
  height : ℕ
  width : ℕ
  data : List (List ℕ)
deriving DecidableEq, Repr

/-- A float32 image (the v1 working representation). -/
structure FImage where
  height : ℕ
  width : ℕ
  data : List (List F32)
deriving DecidableEq, Repr

/-- `np.clip(img_lq + noise, 0, 1)` elementwise on two float images. -/
def addClip01 (a b : FImage) : FImage :=
  ⟨a.height, a.width,
    (a.data.zip b.data).map fun rc =>
      (rc.1.zip rc.2).map fun vw => f32Clip01 (f32Add vw.1 vw.2)⟩

/-- `apply_frame_degradation(img, degradation_params)` (v1).  The external
primitives are parameters: `blurF` is `cv2.filter2D` at the sampled kernel,
`resizeF w h` is `cv2.resize(·, (w, h), INTER_LINEAR)`, `noiseGenF` is
`generate_gaussian_noise(img, sigma, False, repeatable_random=…)` reading
either the injected repeatable stream or the global stream, `jpegF` is
`add_jpg_compression` at the sampled quality.  Conversion in: exact uint8 to
float32 then one rounded division by 255; conversion out: one rounded
multiplication by 255 then truncation to uint8. -/
def apply_frame_degradation
    (blurF : ℚ → FImage → FImage)
    (resizeF : ℕ → ℕ → FImage → FImage)
    (noiseGenF : ℚ → UStream → FImage → FImage)
    (jpegF : ℚ → FImage → FImage)
    (repeatStream globalRng : UStream)
    (p : MosaicRandomDegradationParams) (img : Image) : Image :=
  let h := img.height
  let w := img.width
  let f0 : FImage := ⟨h, w, img.data.map (List.map toF32div255)⟩
  let f1 := if p.should_add_blur then blurF p.blur_kernel f0 else f0
  let f2 := if p.should_down_sample then
      resizeF (⌊(w : ℚ) / p.scale⌋).toNat (⌊(h : ℚ) / p.scale⌋).toNat f1
    else f1
  let f3 := if p.should_add_noise then
      addClip01 f2 (noiseGenF p.sigma
        (if p.repeatable_noise then repeatStream else globalRng) f2)
    else f2
  let f4 := if p.should_add_jpeg_compression then jpegF p.jpeg_quality f3 else f3
  let f5 := if p.should_down_sample then resizeF w h f4 else f4
  ⟨f5.height, f5.width, f5.data.map (List.map fun x => astypeUint8 (mul255f x))⟩

/-- One pixel of the module-level `noise(img, snr=50)`: `img/255.0`, add the
normal sample, clip to `[0,1]`, `(…*255).astype(np.uint8)`.  This function
works in float64; its arithmetic is modelled exactly over ℚ.  The normal
sample (mean 0, std `10^(-snr/20)`) is the value the external
`np.random.normal` produced. -/
def noisePixel (v : ℕ) (g : ℚ) : ℕ :=
  (⌊(255 : ℚ) * (max 0 (min 1 ((v : ℚ)/255 + g)))⌋).toNat

/-- The module-level `noise(img, snr=50)`: `np.random.normal` reads the
process-global numpy generator `globalRng` (one sample per pixel, row
major), not an injected generator. -/
def noise (globalRng : UStream) (img : Image) : Image :=
  ⟨img.height, img.width,
    ((List.range img.data.length).zip img.data).map fun ri =>
      ((List.range ri.2.length).zip ri.2).map fun ci =>
        noisePixel ci.2 (globalRng (ri.1 * img.width + ci.1))⟩

/-- `apply_frame_degradation_v2(img, degradation_params)`: optional
`cv2.GaussianBlur(img, (13,13), blur_sigma)` (external, a parameter), then
optional `noise(img_lq, 50)`; no float round trip otherwise. -/
def apply_frame_degradation_v2 (blurF : ℕ → Image → Image) (globalRng : UStream)
    (p : MosaicRandomDegradationParamsV2) (img : Image) : Image :=
  let img_lq := if p.should_add_blur then blurF p.blur_sigma img else img
  let img_lq2 := if p.should_add_noise then noise globalRng img_lq else img_lq
  img_lq2

/-! ### Video compression round trip -/

/-- Round `n` up to the next multiple of `b`. -/
def padUp (b n : ℕ) : ℕ := b * ((n + b - 1) / b)

/-- Pad one row to length `w` (fill content abstracted as zero). -/
def padRow (w : ℕ) (row : List ℕ) : List ℕ := row ++ List.replicate (w - row.length) 0

/-- Pad pixel rows to `h × w`. -/
def padData (h w : ℕ) (d : List (List ℕ)) : List (List ℕ) :=
  d.map (padRow w) ++ List.replicate (h - d.length) (List.replicate w 0)

/-- Modelled from the spec: `video_utils.pad_to_compatible_size_for_video_codecs`
is absent from the sources; the spec states that every frame's height and
width are padded "up to the nearest size compatible with the chosen video
codec's block/alignment constraints (typically multiples of a small power of
two)".  Modelled as rounding both dimensions up to the next multiple of a
block size `b` (for `yuv420p` any compatible block size is even, so `b ≥ 2`). -/
def pad_to_compatible_size_for_video_codecs (b : ℕ) (imgs : List Image) : List Image :=
  imgs.map fun f => ⟨padUp b f.height, padUp b f.width, padData (padUp b f.height) (padUp b f.width) f.data⟩

/-- What `_apply_video_compression` configures on the av container/stream:
`options = {}` plus `crf` under Python truthiness, `x265-params` for libx265,
`preset veryfast` for libx264/libx265; `stream.height/width` from the first
frame; `pix_fmt yuv420p`; `rate=1`; `bit_rate` under Python truthiness. -/
structure EncodeConfig where
  crf : Option ℕ
  bit_rate : Option ℕ
  preset_veryfast : Bool
  x265_log_quiet : Bool
  height : ℕ
  width : ℕ
  rate : ℕ
  yuv420p : Bool
deriving DecidableEq, Repr

/-- Assemble the encoder configuration exactly as `_apply_video_compression`
does (`if crf:` and `if bitrate:` are Python truthiness tests, so `0` and
`None` both leave the option unset). -/
def encodeConfig (codec : Codec) (bitrate crf : Option ℕ) (h w : ℕ) : EncodeConfig :=
  { crf := match crf with
      | none => none
      | some c => if c = 0 then none else some c
    bit_rate := match bitrate with
      | none => none
      | some b => if b = 0 then none else some b
    preset_veryfast := codec = .libx264 || codec = .libx265
    x265_log_quiet := codec = .libx265
    height := h
    width := w
    rate := 1
    yuv420p := true }

/-- The av encode-mux-flush-decode round trip, an external collaborator:
given the encoder configuration and the frames, the frames the decoder
reconstructs. -/
def CodecModel : Type := EncodeConfig → List Image → List Image

/-- A sample codec model used to evaluate concrete runs: it returns one
decoded frame per input frame, at the encoder's configured dimensions, with
the input pixel data passed through (a lossless stand-in). -/
def dimsCodec : CodecModel := fun cfg frames =>
  frames.map fun f => ⟨cfg.height, cfg.width, f.data⟩

/-- A codec model that reports the quality controls it received: the single
decoded frame carries `crf` and `bit_rate` (sentinel 999 for unset) in its
pixel data. -/
def reportingCodec : CodecModel := fun cfg _frames =>
  [⟨cfg.height, cfg.width, [[cfg.crf.getD 999], [cfg.bit_rate.getD 999]]⟩]

/-- `img[0:h, 0:w, :]`. -/
def cropImage (h w : ℕ) (f : Image) : Image :=
  ⟨min h f.height, min w f.width, (f.data.take h).map fun row => row.take w⟩

/-- `_apply_video_compression(imgs, codec, bitrate, crf)`: configure the
stream from `imgs[0]`'s shape and run the av round trip (empty input is
modelled as empty output; the Python code would fault on `imgs[0]`). -/
def videoCompressionInner (codecM : CodecModel) (imgs : List Image)
    (codec : Codec) (bitrate crf : Option ℕ) : List Image :=
  match imgs with
  | [] => []
  | i0 :: rest => codecM (encodeConfig codec bitrate crf i0.height i0.width) (i0 :: rest)

/-- `apply_video_compression(imgs, codec, bitrate, crf=None)`: pad to a
codec-compatible size, read `h, w` from `imgs[0]` *after* padding, run the
round trip, then crop every decoded frame to `[0:h, 0:w]`. -/
def apply_video_compression (b : ℕ) (codecM : CodecModel) (imgs : List Image)
    (codec : Codec) (bitrate crf : Option ℕ) : List Image :=
  let padded := pad_to_compatible_size_for_video_codecs b imgs
  match padded with
  | [] => []
  | i0 :: rest =>
    let h := i0.height
    let w := i0.width
    (videoCompressionInner codecM (i0 :: rest) codec bitrate crf).map (cropImage h w)

/-- `apply_video_degradation(imgs, degradation_params)` (v1): per-frame
degradation on every frame, then optional whole-sequence video compression
(called with `bitrate` only; `crf` stays at its `None` default). -/
def apply_video_degradation
    (blurF : ℚ → FImage → FImage) (resizeF : ℕ → ℕ → FImage → FImage)
    (noiseGenF : ℚ → UStream → FImage → FImage) (jpegF : ℚ → FImage → FImage)
    (repeatStream globalRng : UStream) (b : ℕ) (codecM : CodecModel)
    (imgs : List Image) (p : MosaicRandomDegradationParams) : List Image :=
  let imgs_lq := imgs.map
    (apply_frame_degradation blurF resizeF noiseGenF jpegF repeatStream globalRng p)
  if p.should_add_video_compression then
    apply_video_compression b codecM imgs_lq p.video_codec (some p.video_bitrate) none
  else imgs_lq

/-- The v2 precondition assertion message. -/
def assertMsgV2 : String := "video compression degradation expects width/height of 256px"

/-- `apply_video_degradation_v2(imgs, degradation_params)`: assert
`max(imgs[0].shape[:2]) == 256` first, then whole-sequence video compression
(called with `degradation_params.video_bitrate` only; `crf` stays at its
`None` default), then per-frame v2 degradation on each decoded frame.
Failures are explicit: the assertion error, or the index error Python
raises for an empty frame list. -/
def apply_video_degradation_v2 (blurF : ℕ → Image → Image) (globalRng : UStream)
    (b : ℕ) (codecM : CodecModel) (imgs : List Image)
    (p : MosaicRandomDegradationParamsV2) : Except String (List Image) :=
  match imgs with
  | [] => .error "IndexError"
  | i0 :: rest =>
    if max i0.height i0.width = 256 then
      let imgs_lq := apply_video_compression b codecM (i0 :: rest)
        p.video_codec p.video_bitrate none
      .ok (imgs_lq.map (apply_frame_degradation_v2 blurF globalRng p))
    else .error assertMsgV2

/-- The v2 crf/bitrate exclusivity invariant: exactly one of the two fields
is set, matching the codec rule. -/
def crfBitrateInvariant (p : MosaicRandomDegradationParamsV2) : Prop :=
  ((p.video_codec = .libx264 ∨ p.video_codec = .libx265) ∧
    (∃ c, p.video_crf = some c) ∧ p.video_bitrate = none) ∨
  ((p.video_codec = .libvpx_vp9 ∨ p.video_codec = .mpeg2video) ∧
    p.video_crf = none ∧ (∃ bv, p.video_bitrate = some bv))

/-! ### Helper lemmas -/

theorem list_map_id_of_mem {α : Type} {f : α → α} :
    ∀ l : List α, (∀ a ∈ l, f a = a) → l.map f = l := by
  intro l h
  induction l with
  | nil => rfl
  | cons a t ih =>
    simp only [List.map_cons, List.cons.injEq]
    exact ⟨h a (List.mem_cons_self a t), ih fun x hx => h x (List.mem_cons_of_mem a hx)⟩

theorem randintDraw_bounds (lo hi : ℕ) (u : ℚ) (hlh : lo < hi) (h0 : 0 ≤ u) (h1 : u < 1) :
    lo ≤ randintDraw lo hi u ∧ randintDraw lo hi u < hi := by
  unfold randintDraw
  have hpos : (0 : ℚ) < (hi : ℚ) - (lo : ℚ) := by
    have : (lo : ℚ) < (hi : ℚ) := by exact_mod_cast hlh
    linarith
  have hfl : (0 : ℤ) ≤ ⌊u * ((hi : ℚ) - (lo : ℚ))⌋ := Int.floor_nonneg.mpr (mul_nonneg h0 hpos.le)
  have hub : ⌊u * ((hi : ℚ) - (lo : ℚ))⌋ < (hi : ℤ) - (lo : ℤ) := by
    apply Int.floor_lt.mpr
    push_cast
    nlinarith
  constructor
  · exact Nat.le_add_right lo _
  · omega

theorem choiceCodecV2_ne_mpeg4 (u : ℚ) : choiceCodecV2 u ≠ .mpeg4 := by
  unfold choiceCodecV2
  split_ifs <;> simp

set_option maxHeartbeats 1000000 in
theorem roundtripPixel_fin : ∀ v : Fin 256, roundtripPixel v = v := by decide

theorem roundtripPixel_eq_self (v : ℕ) (h : v < 256) : roundtripPixel v = v :=
  roundtripPixel_fin ⟨v, h⟩

/-! ### Claim theorems -/

/-- C10: for every input image, a v2 params object with `should_add_blur` and
`should_add_noise` both false makes `apply_frame_degradation_v2` return the
input image bit-identical, with no 8-bit/float round trip at all. -/
theorem v2_frame_degradation_identity_when_disabled
    (blurF : ℕ → Image → Image) (g : UStream)
    (p : MosaicRandomDegradationParamsV2) (img : Image)
    (hb : p.should_add_blur = false) (hn : p.should_add_noise = false) :
    apply_frame_degradation_v2 blurF g p img = img := by
  simp [apply_frame_degradation_v2, hb, hn]

theorem v2_frame_degradation_identity_when_disabled_witness :
    (⟨Codec.libx264, some 20, none, true, 2, false, false, false⟩ :
        MosaicRandomDegradationParamsV2).should_add_blur = false ∧
    apply_frame_degradation_v2 (fun _ i => i) (fun _ => 0)
      ⟨Codec.libx264, some 20, none, true, 2, false, false, false⟩ ⟨1, 2, [[3, 250]]⟩
      = ⟨1, 2, [[3, 250]]⟩ :=
  ⟨rfl, v2_frame_degradation_identity_when_disabled (fun _ i => i) (fun _ => 0)
    ⟨Codec.libx264, some 20, none, true, 2, false, false, false⟩ ⟨1, 2, [[3, 250]]⟩ rfl rfl⟩

/-- C6: for every v2 params object — immediately after construction and
after any number of `reinit_second_pass` calls — exactly one of `video_crf`
and `video_bitrate` is set, and the set one follows the codec rule (crf for
libx264/libx265, bitrate for libvpx-vp9/mpeg2video). -/
theorem v2_crf_bitrate_exclusive (coins nums : UStream) (us : List ℚ) :
    crfBitrateInvariant (us.foldl reinit_second_pass (mkParamsV2 coins nums)) := by
  have hinit : crfBitrateInvariant (mkParamsV2 coins nums) := by
    unfold crfBitrateInvariant
    rcases h : choiceCodecV2 (nums 0) with _ | _ | _ | _ | _
    · exact Or.inl ⟨Or.inl (by simp [mkParamsV2, h]),
        ⟨randintDraw 16 29 (nums 1), by simp [mkParamsV2, h, codecsV2]⟩,
        by simp [mkParamsV2, h]⟩
    · exact Or.inl ⟨Or.inr (by simp [mkParamsV2, h]),
        ⟨randintDraw 20 37 (nums 1), by simp [mkParamsV2, h, codecsV2]⟩,
        by simp [mkParamsV2, h]⟩
    · exact Or.inr ⟨Or.inl (by simp [mkParamsV2, h]), by simp [mkParamsV2, h],
        ⟨randintDraw 6000 16001 (nums 1), by simp [mkParamsV2, h, codecsV2]⟩⟩
    · exact Or.inr ⟨Or.inr (by simp [mkParamsV2, h]), by simp [mkParamsV2, h],
        ⟨randintDraw 18000 40001 (nums 1), by simp [mkParamsV2, h, codecsV2]⟩⟩
    · exact absurd h (choiceCodecV2_ne_mpeg4 _)
  have hstep : ∀ (p : MosaicRandomDegradationParamsV2) (u : ℚ),
      crfBitrateInvariant (reinit_second_pass p u) := fun p u =>
    Or.inl ⟨Or.inl rfl, ⟨_, rfl⟩, rfl⟩
  rcases us with _ | ⟨u, us⟩
  · exact hinit
  · clear hinit
    induction us generalizing u coins nums with
    | nil => exact hstep _ u
    | cons v vs ih => exact ih coins nums v

/-- C7: after any `reinit_second_pass` call, the object has
codec `libx264`, `video_bitrate = None`, `video_crf ∈ [24, 28)`, the blur,
noise and second-pass flags false, `should_add_video_compression` (and
`blur_sigma`) untouched; and every field other than `video_crf` is
independent of the random draw. -/
theorem reinit_second_pass_contract (p : MosaicRandomDegradationParamsV2)
    (u : ℚ) (h0 : 0 ≤ u) (h1 : u < 1) :
    (reinit_second_pass p u).video_codec = Codec.libx264 ∧
    (reinit_second_pass p u).video_bitrate = none ∧
    (∃ c, (reinit_second_pass p u).video_crf = some c ∧ 24 ≤ c ∧ c < 28) ∧
    (reinit_second_pass p u).should_add_blur = false ∧
    (reinit_second_pass p u).should_add_noise = false ∧
    (reinit_second_pass p u).should_run_video_compression_second_pass = false ∧
    (reinit_second_pass p u).should_add_video_compression
      = p.should_add_video_compression ∧
    (reinit_second_pass p u).blur_sigma = p.blur_sigma ∧
    ∀ u' : ℚ,
      (reinit_second_pass p u').video_codec = (reinit_second_pass p u).video_codec ∧
      (reinit_second_pass p u').video_bitrate = (reinit_second_pass p u).video_bitrate ∧
      (reinit_second_pass p u').should_add_blur = (reinit_second_pass p u).should_add_blur ∧
      (reinit_second_pass p u').should_add_noise
        = (reinit_second_pass p u).should_add_noise ∧
      (reinit_second_pass p u').should_run_video_compression_second_pass
        = (reinit_second_pass p u).should_run_video_compression_second_pass ∧
      (reinit_second_pass p u').should_add_video_compression
        = (reinit_second_pass p u).should_add_video_compression ∧
      (reinit_second_pass p u').blur_sigma = (reinit_second_pass p u).blur_sigma := by
  obtain ⟨hlo, hhi⟩ := randintDraw_bounds 24 28 u (by norm_num) h0 h1
  exact ⟨rfl, rfl, ⟨randintDraw 24 28 u, rfl, hlo, hhi⟩, rfl, rfl, rfl, rfl, rfl,
    fun u' => ⟨rfl, rfl, rfl, rfl, rfl, rfl, rfl⟩⟩

theorem reinit_second_pass_contract_witness :
    (0 : ℚ) ≤ 0 ∧ (0 : ℚ) < 1 ∧
    (reinit_second_pass
        ⟨Codec.mpeg2video, none, some 20000, true, 3, true, true, true⟩ 0).video_codec
      = Codec.libx264 ∧
    (∃ c, (reinit_second_pass
        ⟨Codec.mpeg2video, none, some 20000, true, 3, true, true, true⟩ 0).video_crf
      = some c ∧ 24 ≤ c ∧ c < 28) :=
  ⟨le_rfl, zero_lt_one,
    (reinit_second_pass_contract
      ⟨Codec.mpeg2video, none, some 20000, true, 3, true, true, true⟩ 0
      le_rfl zero_lt_one).1,
    (reinit_second_pass_contract
      ⟨Codec.mpeg2video, none, some 20000, true, 3, true, true, true⟩ 0
      le_rfl zero_lt_one).2.2.1⟩

/-- C8: for every unit draw stream, the v2 constructor's sampled numeric
value lies in the codec range inclusive at both ends (crf 16–28 for libx264,
20–36 for libx265, bitrate 6000–16000 for libvpx-vp9, 18000–40000 for
mpeg2video) and `blur_sigma ∈ [1, 4)`. -/
theorem v2_sampled_value_ranges (coins nums : UStream)
    (h : ∀ n, 0 ≤ nums n ∧ nums n < 1) :
    ((mkParamsV2 coins nums).video_codec = Codec.libx264 →
      ∃ c, (mkParamsV2 coins nums).video_crf = some c ∧ 16 ≤ c ∧ c ≤ 28) ∧
    ((mkParamsV2 coins nums).video_codec = Codec.libx265 →
      ∃ c, (mkParamsV2 coins nums).video_crf = some c ∧ 20 ≤ c ∧ c ≤ 36) ∧
    ((mkParamsV2 coins nums).video_codec = Codec.libvpx_vp9 →
      ∃ bv, (mkParamsV2 coins nums).video_bitrate = some bv ∧ 6000 ≤ bv ∧ bv ≤ 16000) ∧
    ((mkParamsV2 coins nums).video_codec = Codec.mpeg2video →
      ∃ bv, (mkParamsV2 coins nums).video_bitrate = some bv ∧ 18000 ≤ bv ∧ bv ≤ 40000) ∧
    1 ≤ (mkParamsV2 coins nums).blur_sigma ∧ (mkParamsV2 coins nums).blur_sigma < 4 := by
  have hcodec : (mkParamsV2 coins nums).video_codec = choiceCodecV2 (nums 0) := rfl
  obtain ⟨hs1, hs2⟩ := randintDraw_bounds 1 4 (nums 2) (by norm_num) (h 2).1 (h 2).2
  refine ⟨?_, ?_, ?_, ?_, hs1, hs2⟩
  · intro hx
    rw [hcodec] at hx
    obtain ⟨hlo, hhi⟩ := randintDraw_bounds 16 29 (nums 1) (by norm_num) (h 1).1 (h 1).2
    exact ⟨randintDraw 16 29 (nums 1), by simp [mkParamsV2, hx, codecsV2], hlo, by omega⟩
  · intro hx
    rw [hcodec] at hx
    obtain ⟨hlo, hhi⟩ := randintDraw_bounds 20 37 (nums 1) (by norm_num) (h 1).1 (h 1).2
    exact ⟨randintDraw 20 37 (nums 1), by simp [mkParamsV2, hx, codecsV2], hlo, by omega⟩
  · intro hx
    rw [hcodec] at hx
    obtain ⟨hlo, hhi⟩ := randintDraw_bounds 6000 16001 (nums 1) (by norm_num) (h 1).1 (h 1).2
    exact ⟨randintDraw 6000 16001 (nums 1), by simp [mkParamsV2, hx, codecsV2], hlo, by omega⟩
  · intro hx
    rw [hcodec] at hx
    obtain ⟨hlo, hhi⟩ := randintDraw_bounds 18000 40001 (nums 1) (by norm_num) (h 1).1 (h 1).2
    exact ⟨randintDraw 18000 40001 (nums 1), by simp [mkParamsV2, hx, codecsV2], hlo, by omega⟩

theorem v2_sampled_value_ranges_witness :
    1 ≤ (mkParamsV2 (fun _ => 0) (fun _ => 0)).blur_sigma ∧
    (mkParamsV2 (fun _ => 0) (fun _ => 0)).blur_sigma < 4 :=
  (v2_sampled_value_ranges (fun _ => 0) (fun _ => 0)
    (fun _ => ⟨le_rfl, zero_lt_one⟩)).2.2.2.2

/-- C5: for every toggle combination and every draw, each `should_add_X`
field of a fresh v1 params object equals `requested_X AND bernoulli_draw`
(so it is true only if the toggle was requested; the coin position of each
later flag shifts with the earlier short-circuited toggles), while every
parameter value is drawn unconditionally: `scale`, `sigma`, `jpeg_quality`
and `video_bitrate` always come from numeric draws 0–3, the codec is always
drawn from the coin stream, the kernel is always generated, and the purely
numeric draws do not depend on the toggles at all. -/
theorem v1_flags_and_unconditional_draws
    (td tn ti tv tb rep : Bool) (coins nums kdraws : UStream) :
    (mkParamsV1 td tn ti tv tb rep coins nums kdraws).should_down_sample
      = (td && decide (coins 0 < (1 : ℚ)/2)) ∧
    (mkParamsV1 td tn ti tv tb rep coins nums kdraws).should_add_noise
      = (tn && decide (coins (if td then 1 else 0) < (3 : ℚ)/10)) ∧
    (mkParamsV1 td tn ti tv tb rep coins nums kdraws).should_add_jpeg_compression
      = (ti && decide (coins ((if td then 1 else 0) + (if tn then 1 else 0)) < (1 : ℚ)/2)) ∧
    (mkParamsV1 td tn ti tv tb rep coins nums kdraws).should_add_video_compression
      = (tv && decide (coins ((if td then 1 else 0) + (if tn then 1 else 0)
          + (if ti then 1 else 0) + 1) < (1 : ℚ)/2)) ∧
    (mkParamsV1 td tn ti tv tb rep coins nums kdraws).should_add_blur
      = (tb && decide (coins ((if td then 1 else 0) + (if tn then 1 else 0)
          + (if ti then 1 else 0) + 1 + (if tv then 1 else 0)) < (1 : ℚ)/2)) ∧
    (mkParamsV1 td tn ti tv tb rep coins nums kdraws).scale
      = uniformDraw ((1 : ℚ)/2) 2 (nums 0) ∧
    (mkParamsV1 td tn ti tv tb rep coins nums kdraws).sigma
      = uniformDraw 0 2 (nums 1) ∧
    (mkParamsV1 td tn ti tv tb rep coins nums kdraws).jpeg_quality
      = uniformDraw 70 90 (nums 2) ∧
    (mkParamsV1 td tn ti tv tb rep coins nums kdraws).video_codec
      = choiceCodecV1 (coins ((if td then 1 else 0) + (if tn then 1 else 0)
          + (if ti then 1 else 0))) ∧
    (mkParamsV1 td tn ti tv tb rep coins nums kdraws).video_bitrate
      = randintDraw
          (codecsV1 ((mkParamsV1 td tn ti tv tb rep coins nums kdraws).video_codec)).1
          ((codecsV1 ((mkParamsV1 td tn ti tv tb rep coins nums kdraws).video_codec)).2 + 1)
          (nums 3) ∧
    (mkParamsV1 td tn ti tv tb rep coins nums kdraws).blur_kernel = kdraws 0 ∧
    ∀ td' tn' ti' tv' tb' : Bool,
      (mkParamsV1 td' tn' ti' tv' tb' rep coins nums kdraws).scale
        = (mkParamsV1 td tn ti tv tb rep coins nums kdraws).scale ∧
      (mkParamsV1 td' tn' ti' tv' tb' rep coins nums kdraws).sigma
        = (mkParamsV1 td tn ti tv tb rep coins nums kdraws).sigma ∧
      (mkParamsV1 td' tn' ti' tv' tb' rep coins nums kdraws).jpeg_quality
        = (mkParamsV1 td tn ti tv tb rep coins nums kdraws).jpeg_quality ∧
      (mkParamsV1 td' tn' ti' tv' tb' rep coins nums kdraws).blur_kernel
        = (mkParamsV1 td tn ti tv tb rep coins nums kdraws).blur_kernel :=
  ⟨rfl, rfl, rfl, rfl, rfl, rfl, rfl, rfl, rfl, rfl, rfl,
    fun _ _ _ _ _ => ⟨rfl, rfl, rfl, rfl⟩⟩

theorem row_roundtrip_id (row : List ℕ) (h : ∀ v ∈ row, v < 256) :
    (row.map toF32div255).map (fun x => astypeUint8 (mul255f x)) = row := by
  rw [List.map_map]
  exact list_map_id_of_mem row fun v hv => roundtripPixel_eq_self v (h v hv)

/-- C2: for every 8-bit input image, a v1 params object with all five
`should_*` flags false makes `apply_frame_degradation` return the input
bit-identically: the float32 normalize/denormalize round trip
`trunc(fl32(fl32(v/255) · 255))` is the identity on 0…255. -/
theorem v1_all_flags_disabled_is_identity
    (blurF : ℚ → FImage → FImage) (resizeF : ℕ → ℕ → FImage → FImage)
    (noiseGenF : ℚ → UStream → FImage → FImage) (jpegF : ℚ → FImage → FImage)
    (rs g : UStream) (p : MosaicRandomDegradationParams) (img : Image)
    (h1 : p.should_down_sample = false) (h2 : p.should_add_noise = false)
    (h3 : p.should_add_jpeg_compression = false)
    (h4 : p.should_add_video_compression = false)
    (h5 : p.should_add_blur = false)
    (hpix : ∀ row ∈ img.data, ∀ v ∈ row, v < 256) :
    apply_frame_degradation blurF resizeF noiseGenF jpegF rs g p img = img := by
  unfold apply_frame_degradation
  simp only [h1, h2, h3, h5, Bool.false_eq_true, if_false]
  have hdata : (img.data.map (List.map toF32div255)).map
      (List.map fun x => astypeUint8 (mul255f x)) = img.data := by
    rw [List.map_map]
    exact list_map_id_of_mem img.data fun row hr => row_roundtrip_id row (hpix row hr)
  rw [hdata]

theorem v1_all_flags_disabled_is_identity_witness :
    apply_frame_degradation (fun _ f => f) (fun _ _ f => f) (fun _ _ f => f) (fun _ f => f)
      (fun _ => 0) (fun _ => 0)
      ⟨false, 1, false, 1, false, false, 80, Codec.libx264, 20000, false, false, 0⟩
      ⟨2, 2, [[0, 3], [250, 255]]⟩
      = ⟨2, 2, [[0, 3], [250, 255]]⟩ :=
  v1_all_flags_disabled_is_identity (fun _ f => f) (fun _ _ f => f) (fun _ _ f => f)
    (fun _ f => f) (fun _ => 0) (fun _ => 0)
    ⟨false, 1, false, 1, false, false, 80, Codec.libx264, 20000, false, false, 0⟩
    ⟨2, 2, [[0, 3], [250, 255]]⟩ rfl rfl rfl rfl rfl (by decide)

/-- C4: on a (nonempty, same-sized) frame list, `apply_video_degradation_v2`
fails with the assertion error — before any degradation is applied: the
result is `.error` for every codec model and blur stub — exactly when
`max(height, width) ≠ 256`; under the precondition it proceeds to a result. -/
theorem v2_resolution_assertion (blurF : ℕ → Image → Image) (g : UStream)
    (b : ℕ) (codecM : CodecModel) (p : MosaicRandomDegradationParamsV2)
    (i0 : Image) (rest : List Image)
    (hsame : ∀ f ∈ i0 :: rest, f.height = i0.height ∧ f.width = i0.width) :
    (max i0.height i0.width ≠ 256 →
      apply_video_degradation_v2 blurF g b codecM (i0 :: rest) p = .error assertMsgV2) ∧
    (max i0.height i0.width = 256 →
      ∃ out, apply_video_degradation_v2 blurF g b codecM (i0 :: rest) p = .ok out) := by
  constructor
  · intro hne
    simp [apply_video_degradation_v2, hne]
  · intro heq
    exact ⟨(apply_video_compression b codecM (i0 :: rest) p.video_codec
        p.video_bitrate none).map (apply_frame_degradation_v2 blurF g p),
      by simp [apply_video_degradation_v2, heq]⟩

theorem v2_resolution_assertion_witness :
    (max 257 255 ≠ 256 ∧
      apply_video_degradation_v2 (fun _ i => i) (fun _ => 0) 2 dimsCodec
        [⟨257, 255, []⟩] ⟨Codec.libx264, some 20, none, true, 2, false, false, false⟩
        = .error assertMsgV2) ∧
    (max 256 256 = 256 ∧
      ∃ out, apply_video_degradation_v2 (fun _ i => i) (fun _ => 0) 2 dimsCodec
        [⟨256, 256, []⟩] ⟨Codec.libx264, some 20, none, true, 2, false, false, false⟩
        = .ok out) :=
  ⟨⟨by decide,
    (v2_resolution_assertion (fun _ i => i) (fun _ => 0) 2 dimsCodec
      ⟨Codec.libx264, some 20, none, true, 2, false, false, false⟩ ⟨257, 255, []⟩ []
      (by simp)).1 (by decide)⟩,
  ⟨rfl,
    (v2_resolution_assertion (fun _ i => i) (fun _ => 0) 2 dimsCodec
      ⟨Codec.libx264, some 20, none, true, 2, false, false, false⟩ ⟨256, 256, []⟩ []
      (by simp)).2 rfl⟩⟩

/-- C1 (failing evaluation): `apply_video_compression` reads `h, w` from
`imgs[0]` *after* padding, so the final crop restores the padded size, not
the original one.  A 257×255 frame run through the v1 pipeline (with a codec
model that returns frames at the encoder's configured size) comes back
258×256; a 256×255 frame through the v2 pipeline comes back 256×256.  The
last conjunct: for every block size 2…256 the padded height of 257 exceeds
257 (257 is odd and prime), so no small-block padding leaves the size
unchanged. -/
theorem video_compression_returns_padded_size :
    ((apply_video_degradation (fun _ f => f) (fun _ _ f => f) (fun _ _ f => f)
        (fun _ f => f) (fun _ => 0) (fun _ => 0) 2 dimsCodec [⟨257, 255, [[7]]⟩]
        ⟨false, 1, false, 1, false, false, 80, Codec.libx264, 20000, true, false, 0⟩).map
      (fun f => (f.height, f.width)) = [(258, 256)]) ∧
    ((258, 256) ≠ (257, 255)) ∧
    ((apply_video_degradation_v2 (fun _ i => i) (fun _ => 0) 2 dimsCodec
        [⟨256, 255, [[7]]⟩]
        ⟨Codec.libx264, some 20, none, true, 2, false, false, false⟩).map
      (List.map fun f => (f.height, f.width)) = .ok [(256, 256)]) ∧
    ((256, 256) ≠ (256, 255)) ∧
    ((List.range 255).all fun i => decide (257 < padUp (i + 2) 257)) = true := by
  refine ⟨by decide, by decide, rfl, by decide, by decide⟩

/-- C3 (failing evaluation): the v2 pipeline calls `apply_video_compression`
with `degradation_params.video_bitrate` only, leaving `crf` at its `None`
default, so for a libx264 v2 params object (crf sampled, bitrate `None`) the
encoder receives *neither* control (both report the unset sentinel 999);
the second conjunct shows the same machinery does deliver a crf when one is
passed, so the sampled `video_crf = 20` is simply dropped. -/
theorem v2_encoder_sees_no_quality_control :
    (apply_video_degradation_v2 (fun _ i => i) (fun _ => 0) 2 reportingCodec
        [⟨256, 256, []⟩] ⟨Codec.libx264, some 20, none, true, 2, false, false, false⟩
      = .ok [⟨256, 256, [[999], [999]]⟩]) ∧
    (apply_video_compression 2 reportingCodec [⟨256, 256, []⟩] Codec.libx264
        none (some 20)
      = [⟨256, 256, [[20], [999]]⟩]) := by
  refine ⟨rfl, by decide⟩

theorem noisePixel_128_zero : noisePixel 128 0 = 128 := by
  unfold noisePixel
  push_cast
  rw [add_zero, min_eq_right (by norm_num : (128 : ℚ)/255 ≤ 1),
    max_eq_right (by positivity : (0 : ℚ) ≤ 128/255),
    show (255 : ℚ) * (128/255) = 128 by ring]
  norm_num
  decide

theorem noisePixel_128_half : noisePixel 128 ((1 : ℚ)/2) = 255 := by
  unfold noisePixel
  push_cast
  rw [show ((128 : ℚ)/255 + 1/2) = 511/510 by ring,
    min_eq_left (by norm_num : (1 : ℚ) ≤ 511/510),
    max_eq_right (by norm_num : (0 : ℚ) ≤ 1), mul_one]
  norm_num
  decide

theorem mkParamsV2_all_zero :
    mkParamsV2 (fun _ => 0) (fun _ => 0)
      = ⟨Codec.libx264, some 16, none, true, 1, true, true, true⟩ := by
  unfold mkParamsV2 choiceCodecV2 randintDraw codecsV2
  norm_num
  simp

/-- C9 (counterexample): with both injected generator streams fixed (the
deterministically seeded repeatable draws), the v2 per-frame degradation —
whose noise step calls `np.random.normal`, i.e. reads the process-global
numpy stream — still changes with the global state, so two "identical" runs
need not produce bit-identical output frames. -/
theorem v2_noise_depends_on_global_state :
    apply_frame_degradation_v2 (fun _ i => i) (fun _ => 0)
        (mkParamsV2 (fun _ => 0) (fun _ => 0)) ⟨1, 1, [[128]]⟩
      ≠ apply_frame_degradation_v2 (fun _ i => i) (fun _ => (1 : ℚ)/2)
        (mkParamsV2 (fun _ => 0) (fun _ => 0)) ⟨1, 1, [[128]]⟩ := by
  rw [mkParamsV2_all_zero]
  have h1 : apply_frame_degradation_v2 (fun _ i => i) (fun _ => 0)
      ⟨Codec.libx264, some 16, none, true, 1, true, true, true⟩ ⟨1, 1, [[128]]⟩
      = ⟨1, 1, [[noisePixel 128 0]]⟩ := by
    simp [apply_frame_degradation_v2, noise, List.range_succ]
  have h2 : apply_frame_degradation_v2 (fun _ i => i) (fun _ => (1 : ℚ)/2)
      ⟨Codec.libx264, some 16, none, true, 1, true, true, true⟩ ⟨1, 1, [[128]]⟩
      = ⟨1, 1, [[noisePixel 128 ((1 : ℚ)/2)]]⟩ := by
    simp [apply_frame_degradation_v2, noise, List.range_succ]
  rw [h1, h2, noisePixel_128_zero, noisePixel_128_half]
  simp

/-- C9 (amended): randomness that *is* routed through the injected
generators is reproducible — the v1 per-frame pipeline with
`repeatable_noise` set reads only the injected repeatable stream, and the
v2 per-frame pipeline is global-state-free whenever its noise step is
disabled — but the v2 noise step itself reads the global stream (see the
counterexample). -/
theorem injected_randomness_independent_of_global
    (blurF : ℚ → FImage → FImage) (resizeF : ℕ → ℕ → FImage → FImage)
    (noiseGenF : ℚ → UStream → FImage → FImage) (jpegF : ℚ → FImage → FImage)
    (rs g g' : UStream) (p : MosaicRandomDegradationParams) (img : Image)
    (hrep : p.repeatable_noise = true)
    (blurF2 : ℕ → Image → Image) (p2 : MosaicRandomDegradationParamsV2)
    (img2 : Image) (hn2 : p2.should_add_noise = false) :
    apply_frame_degradation blurF resizeF noiseGenF jpegF rs g p img
      = apply_frame_degradation blurF resizeF noiseGenF jpegF rs g' p img ∧
    apply_frame_degradation_v2 blurF2 g p2 img2
      = apply_frame_degradation_v2 blurF2 g' p2 img2 := by
  constructor
  · simp [apply_frame_degradation, hrep]
  · simp [apply_frame_degradation_v2, hn2]

theorem injected_randomness_independent_of_global_witness :
    apply_frame_degradation (fun _ f => f) (fun _ _ f => f) (fun _ _ f => f)
        (fun _ f => f) (fun _ => 0) (fun _ => 0)
        ⟨false, 1, false, 1, true, false, 80, Codec.libx264, 20000, false, false, 0⟩
        ⟨1, 1, [[5]]⟩
      = apply_frame_degradation (fun _ f => f) (fun _ _ f => f) (fun _ _ f => f)
        (fun _ f => f) (fun _ => 0) (fun _ => 1)
        ⟨false, 1, false, 1, true, false, 80, Codec.libx264, 20000, false, false, 0⟩
        ⟨1, 1, [[5]]⟩ ∧
    apply_frame_degradation_v2 (fun _ i => i) (fun _ => 0)
        ⟨Codec.libx264, some 20, none, true, 2, true, false, false⟩ ⟨1, 1, [[5]]⟩
      = apply_frame_degradation_v2 (fun _ i => i) (fun _ => 1)
        ⟨Codec.libx264, some 20, none, true, 2, true, false, false⟩ ⟨1, 1, [[5]]⟩ :=
  injected_randomness_independent_of_global (fun _ f => f) (fun _ _ f => f)
    (fun _ _ f => f) (fun _ f => f) (fun _ => 0) (fun _ => 0) (fun _ => 1)
    ⟨false, 1, false, 1, true, false, 80, Codec.libx264, 20000, false, false, 0⟩
    ⟨1, 1, [[5]]⟩ rfl (fun _ i => i)
    ⟨Codec.libx264, some 20, none, true, 2, true, false, false⟩ ⟨1, 1, [[5]]⟩ rfl
